import Mathlib

/-!
Shallow embedding of the customer-support agent demo.

The backing store is modelled as an explicit relational state (lists of
rows for the Customers, Orders, Products, Shipments and DocChunks tables).
Each tool forward method from the repository is translated into a pure
Lean function that returns the list of SQL statements it issues (its
query trace, by kind) together with its structured result, mirroring
src/agent/tools/sql_tool.py, src/agent/tools/rag_tool.py,
src/agent/tools/shipping_tool.py and src/scripts/embed_sql.py.
-/

/-- Row of the Agent_Data.Customers table. -/
structure Customer where
  email : String
  customerId : Int
  deriving DecidableEq, Repr

/-- Row of the Agent_Data.Orders table (OrderDate modelled as an integer
date key; the tools only compare and sort dates). -/
structure Order where
  orderId : Int
  customerId : Int
  productId : Int
  orderDate : Int
  status : String
  deriving DecidableEq, Repr

/-- Row of the Agent_Data.Products table (Price modelled as an integer;
the tools treat it as an opaque comparable number). -/
structure Product where
  productId : Int
  name : String
  category : String
  price : Int
  description : Option String
  embedding : List Int
  deriving DecidableEq, Repr

/-- Row of the Agent_Data.Shipments table. -/
structure Shipment where
  orderId : Int
  trackingCode : String
  deriving DecidableEq, Repr

/-- Row of the Agent_Data.DocChunks table as queried by rag_doc_search. -/
structure DocChunkVec where
  chunkId : Int
  docId : String
  title : String
  chunkText : String
  embedding : List Int
  deriving DecidableEq, Repr

/-- The backing store state visible to the tools. -/
structure DB where
  customers : List Customer
  orders : List Order
  products : List Product
  shipments : List Shipment
  docChunks : List DocChunkVec
  deriving DecidableEq, Repr

/-- Kinds of SQL statement a tool can issue against the store.  The
healthcheck is the SELECT 1 probe run by the ensure-connected helper. -/
inductive SQLQuery where
  | healthcheck
  | customerLookup (email : String)
  | lastOrders (cid : Int) (limit : Nat)
  | orderById (cid : Int) (oid : Int)
  | ordersInRange (cid : Int) (startDate : Int) (endDate : Int)
  | docSimilarity (queryText : String) (topK : Nat) (cfg : String)
  | productSimilarity (queryText : String) (topK : Nat) (priceFilter : Option Int) (cfg : String)
  deriving DecidableEq, Repr

/-- True for the statements that read rows of the Orders table. -/
def isOrderDataQuery : SQLQuery → Bool
  | .lastOrders _ _ => true
  | .orderById _ _ => true
  | .ordersInRange _ _ _ => true
  | _ => false

/-- True for the similarity (EMBEDDING / VECTOR_DOT_PRODUCT) statements. -/
def isSimilarityQuery : SQLQuery → Bool
  | .docSimilarity _ _ _ => true
  | .productSimilarity _ _ _ _ => true
  | _ => false

/-- Embeds _BaseSQLTool._get_customer_id: query_one over Customers with
WHERE Email = ?, returning the CustomerID of the first matching row. -/
def getCustomerId (db : DB) (email : String) : Option Int :=
  (db.customers.find? (fun c => c.email == email)).map (fun c => c.customerId)

/-- One row of the joined result set produced by the three order tools
(Orders JOIN Products LEFT JOIN Shipments). -/
structure OrderRow where
  orderId : Int
  orderDate : Int
  status : String
  productId : Int
  productName : String
  category : String
  price : Int
  trackingCode : Option String
  deriving DecidableEq, Repr

/-- Builds the joined output row from an order, its product and the
optional shipment tracking code. -/
def mkOrderRow (o : Order) (p : Product) (tc : Option String) : OrderRow :=
  { orderId := o.orderId, orderDate := o.orderDate, status := o.status,
    productId := p.productId, productName := p.name, category := p.category,
    price := p.price, trackingCode := tc }

/-- LEFT JOIN of one (order, product) pair with Shipments ON
s.OrderID = o.OrderID: one row per matching shipment, or a single row
with a null tracking code when no shipment matches. -/
def shipmentJoin (db : DB) (o : Order) (p : Product) : List OrderRow :=
  let hits := db.shipments.filter (fun s => s.orderId == o.orderId)
  if hits.isEmpty then [mkOrderRow o p none]
  else hits.map (fun s => mkOrderRow o p (some s.trackingCode))

/-- FROM Orders JOIN Products ON p.ProductID = o.ProductID LEFT JOIN
Shipments, restricted by a WHERE predicate on the order row (the
predicate only mentions Orders columns, so pushing it down is sound). -/
def orderJoinRows (db : DB) (pred : Order → Bool) : List OrderRow :=
  db.orders.flatMap (fun o =>
    if pred o then
      db.products.flatMap (fun p =>
        if p.productId == o.productId then shipmentJoin db o p else [])
    else [])

/-- ORDER BY o.OrderDate DESC comparison. -/
def dateDescR (a b : OrderRow) : Prop := b.orderDate ≤ a.orderDate

instance : DecidableRel dateDescR :=
  fun a b => inferInstanceAs (Decidable (b.orderDate ≤ a.orderDate))

instance : IsTotal OrderRow dateDescR :=
  ⟨fun a b => Int.le_total b.orderDate a.orderDate⟩

instance : IsTrans OrderRow dateDescR :=
  ⟨fun _ _ _ hab hbc => le_trans hbc hab⟩

/-- Structured result of sql_last_orders / sql_orders_in_range. -/
structure OrdersOut where
  orders : List OrderRow
  note : Option String
  deriving DecidableEq, Repr

/-- Structured result of sql_order_by_id. -/
structure OrderOut where
  order : Option OrderRow
  note : Option String
  deriving DecidableEq, Repr

/-- Effective LIMIT used by sql_last_orders: int(max(1, limit)). -/
def effectiveLimit (limit : Int) : Nat := (max 1 limit).toNat

/-- Embeds SQLLastOrdersTool.forward.  Returns the trace of issued SQL
statements and the structured result. -/
def sqlLastOrdersForward (db : DB) (userEmail : String) (limit : Int := 30) :
    List SQLQuery × OrdersOut :=
  match getCustomerId db userEmail with
  | none =>
      ([.healthcheck, .customerLookup userEmail],
       { orders := [], note := some "unknown user_email" })
  | some cid =>
      let lim := effectiveLimit limit
      let rows := (List.insertionSort dateDescR (orderJoinRows db (fun o => o.customerId == cid))).take lim
      ([.healthcheck, .customerLookup userEmail, .lastOrders cid lim],
       { orders := rows, note := none })

/-- Embeds SQLOrderByIdTool.forward: query_one over the join with
WHERE o.CustomerID = ? AND o.OrderID = ?. -/
def sqlOrderByIdForward (db : DB) (userEmail : String) (orderId : Int) :
    List SQLQuery × OrderOut :=
  match getCustomerId db userEmail with
  | none =>
      ([.healthcheck, .customerLookup userEmail],
       { order := none, note := some "unknown user_email" })
  | some cid =>
      let rows := orderJoinRows db (fun o => o.customerId == cid && o.orderId == orderId)
      ([.healthcheck, .customerLookup userEmail, .orderById cid orderId],
       match rows.head? with
       | none => { order := none, note := some "order not found or not owned by this user" }
       | some r => { order := some r, note := none })

/-- Embeds SQLOrdersInRangeTool.forward.  The calendar dates are modelled
as the integer date keys produced by TO_DATE inside the store; BETWEEN is
the inclusive range test. -/
def sqlOrdersInRangeForward (db : DB) (userEmail : String) (startDate endDate : Int) :
    List SQLQuery × OrdersOut :=
  match getCustomerId db userEmail with
  | none =>
      ([.healthcheck, .customerLookup userEmail],
       { orders := [], note := some "unknown user_email" })
  | some cid =>
      let rows := List.insertionSort dateDescR (orderJoinRows db
        (fun o => o.customerId == cid && startDate ≤ o.orderDate && o.orderDate ≤ endDate))
      ([.healthcheck, .customerLookup userEmail, .ordersInRange cid startDate endDate],
       { orders := rows, note := none })

/-- Python str.strip(): drop leading and trailing whitespace. -/
def pyStrip (s : String) : String :=
  String.mk (((s.data.dropWhile Char.isWhitespace).reverse.dropWhile Char.isWhitespace).reverse)

/-- Prefix of the first n characters of a string (SUBSTRING(text, 1, n)). -/
def pyTake (s : String) (n : Nat) : String :=
  String.mk (s.data.take n)

/-- Allowed characters of an embedding configuration name, the regex
character class [A-Za-z0-9._-] from _validate_config_name. -/
def allowedConfigChar (c : Char) : Bool :=
  c.isAlpha || c.isDigit || c == '.' || c == '_' || c == '-'

/-- Message of the ValueError raised by _validate_config_name. -/
def invalidConfigMsg : String :=
  "Invalid EMBEDDING config name. Allowed: letters, digits, dot, underscore, dash."

/-- Embeds _BaseRAGSQLTool._validate_config_name: re.fullmatch of
[A-Za-z0-9._-]+ (at least one character, all from the class) returns the
name unchanged, anything else raises ValueError. -/
def validateConfigName (name : String) : Except String String :=
  if name ≠ "" && name.toList.all allowedConfigChar then Except.ok name
  else Except.error invalidConfigMsg

/-- VECTOR_DOT_PRODUCT over the vector representation of embeddings. -/
def dotProduct (a b : List Int) : Int :=
  ((a.zip b).map (fun p => p.1 * p.2)).sum

/-- Clamped result count of rag_doc_search: max(1, min(int(k), 10)). -/
def docTopK (k : Int) : Nat := (max 1 (min k 10)).toNat

/-- Clamped result count of rag_product_search: max(1, min(int(k), 20)). -/
def productTopK (k : Int) : Nat := (max 1 (min k 20)).toNat

/-- One snippet of the rag_doc_search payload. -/
structure SnippetOut where
  chunkId : Int
  docId : String
  title : String
  snippet : String
  score : Int
  deriving DecidableEq, Repr

/-- Structured result of rag_doc_search. -/
structure DocSearchOut where
  snippets : List SnippetOut
  note : Option String
  deriving DecidableEq, Repr

/-- Descending comparison on the similarity score of a scored row. -/
def scoreDescR {α : Type} (a b : α × Int) : Prop := b.2 ≤ a.2

instance {α : Type} : DecidableRel (scoreDescR (α := α)) :=
  fun a b => inferInstanceAs (Decidable (b.2 ≤ a.2))

/-- Embeds RAGDocSearchTool.forward.  The embedding function of the store
(EMBEDDING(text, cfg)) is an external parameter mapping the config name
and a text to a vector.  Returns the trace of issued SQL statements and
either the ValueError message or the structured payload. -/
def docSearchForward (db : DB) (embed : String → String → List Int)
    (embedConfig : String) (query : String) (k : Int := 3) :
    List SQLQuery × Except String DocSearchOut :=
  let q := pyStrip query
  if q == "" then
    ([.healthcheck], .ok { snippets := [], note := some "empty query" })
  else
    match validateConfigName embedConfig with
    | .error msg => ([.healthcheck], .error msg)
    | .ok cfg =>
        let topK := docTopK k
        let qvec := embed cfg q
        let scored := db.docChunks.map (fun c => (c, dotProduct c.embedding qvec))
        let ranked := (List.insertionSort scoreDescR scored).take topK
        ([.healthcheck, .docSimilarity q topK cfg],
         .ok { snippets := ranked.map (fun rc =>
                 { chunkId := rc.1.chunkId, docId := rc.1.docId, title := rc.1.title,
                   snippet := pyStrip (pyTake rc.1.chunkText 400), score := rc.2 }),
               note := none })

/-- One product of the rag_product_search payload. -/
structure ProductHit where
  productId : Int
  name : String
  category : String
  price : Int
  score : Int
  deriving DecidableEq, Repr

/-- Structured result of rag_product_search. -/
structure ProductSearchOut where
  products : List ProductHit
  note : Option String
  deriving DecidableEq, Repr

/-- Embeds RAGProductSearchTool.forward, including the optional bound
maximum-price filter (applied only when supplied and non-negative). -/
def productSearchForward (db : DB) (embed : String → String → List Int)
    (embedConfig : String) (query : String) (k : Int := 5)
    (priceMax : Option Int := none) :
    List SQLQuery × Except String ProductSearchOut :=
  let q := pyStrip query
  if q == "" then
    ([.healthcheck], .ok { products := [], note := some "empty query" })
  else
    match validateConfigName embedConfig with
    | .error msg => ([.healthcheck], .error msg)
    | .ok cfg =>
        let topK := productTopK k
        let qvec := embed cfg q
        let priceFilter := match priceMax with
          | some pm => if 0 ≤ pm then some pm else none
          | none => none
        let pool : List Product := match priceFilter with
          | some pm => db.products.filter (fun p => decide (p.price ≤ pm))
          | none => db.products
        let scored := pool.map (fun p => (p, dotProduct p.embedding qvec))
        let ranked := (List.insertionSort scoreDescR scored).take topK
        ([.healthcheck, .productSimilarity q topK priceFilter cfg],
         .ok { products := ranked.map (fun rp =>
                 { productId := rp.1.productId, name := rp.1.name,
                   category := rp.1.category, price := rp.1.price, score := rp.2 }),
               note := none })

/-- Minimal JSON value type for the shipping tool payloads. -/
inductive JVal where
  | null
  | bool (b : Bool)
  | num (n : Int)
  | str (s : String)
  | arr (xs : List JVal)
  | obj (fields : List (String × JVal))

/-- Outcome of the HTTP POST as seen inside the try block of
ShippingStatusTool.forward: either requests.post and (when the content
type is JSON) resp.json() both succeed, or some exception is raised
(network error, timeout, malformed JSON body, ...). -/
inductive HttpOutcome where
  | success (status : Int) (isJson : Bool) (jsonBody : JVal) (textBody : String)
  | failure (excName : String) (excMsg : String)

/-- Structured result of shipping_status; absent JSON fields are none. -/
structure ShipOut where
  endpoint : String
  requestId : String
  httpStatus : Option Int
  response : Option JVal
  error : Option String

/-- Python `a or b` on strings: b when a is missing or empty. -/
def pyOr (a : Option String) (b : String) : String :=
  match a with
  | some s => if s == "" then b else s
  | none => b

/-- Python rstrip of the slash character. -/
def rstripSlash (s : String) : String :=
  String.mk ((s.data.reverse.dropWhile (fun c => c == '/')).reverse)

/-- Embeds ShippingStatusTool.forward.  The fresh UUID and the HTTP
outcome are external inputs; order status and tracking number feed the
POST payload and do not appear in the wrapped result. -/
def shippingForward (defaultUrl orderStatus trackingNumber freshUuid : String)
    (outcome : HttpOutcome) (requestId : Option String := none)
    (url : Option String := none) (timeoutSec : Int := 10) : ShipOut :=
  let endpoint := rstripSlash (pyOr url defaultUrl)
  let rid := pyOr requestId freshUuid
  match outcome with
  | .failure excName excMsg =>
      { endpoint := endpoint, requestId := rid, httpStatus := none,
        response := none, error := some (excName ++ ": " ++ excMsg) }
  | .success status isJson jsonBody textBody =>
      let data := if isJson then jsonBody
                  else JVal.obj [("status", JVal.num status), ("body", JVal.str textBody)]
      { endpoint := endpoint, requestId := rid, httpStatus := some status,
        response := some data, error := none }

/-- Python slice text[i : i + size] on a character list. -/
def pySlice (text : List Char) (i size : Nat) : List Char :=
  (text.drop i).take size

/-- Loop of make_chunks: while i < len(text), take text[i : i + size],
record (i, i + len(chunk), chunk), advance i by the step.  The caller
always passes a positive step (max(1, ...) in the source), so the inner
max 1 used for termination coincides with the step. -/
def makeChunksAux (text : List Char) (size step : Nat) (i : Nat) :
    List (Nat × Nat × List Char) :=
  if _h : i < text.length then
    let chunk := pySlice text i size
    if chunk.isEmpty then []
    else (i, i + chunk.length, chunk) :: makeChunksAux text size step (i + max 1 step)
  else []
termination_by text.length - i
decreasing_by
  have : 1 ≤ max 1 step := le_max_left 1 step
  omega

/-- Embeds make_chunks from src/scripts/embed_sql.py: non-positive size
returns the whole text as one chunk, otherwise a sliding window of the
given size advancing by max(1, size - max(0, overlap)).  The defaults
mirror CHUNK_SIZE = 800 and CHUNK_OVERLAP = 150. -/
def makeChunks (text : List Char) (size : Int := 800) (overlap : Int := 150) :
    List (Nat × Nat × List Char) :=
  if size ≤ 0 then [(0, text.length, text)]
  else makeChunksAux text size.toNat (max 1 (size - max 0 overlap)).toNat 0

/-- Row of Agent_Data.DocChunks as written by upsert_doc_chunks. -/
structure DocChunkDBRow where
  docId : String
  chunkIndex : Nat
  startPos : Nat
  endPos : Nat
  title : String
  heading : Option String
  chunkText : List Char
  deriving DecidableEq, Repr

/-- Keyed rows emitted by upsert_doc_chunks for one document: one
INSERT OR UPDATE per chunk, keyed by the natural key (DocID, ChunkIndex)
with idx running over enumerate(chunks). -/
def docChunkUpsertRows (docId title : String) (body : List Char)
    (size overlap : Int) : List ((String × Nat) × DocChunkDBRow) :=
  (makeChunks body size overlap).enum.map (fun p =>
    ((docId, p.1),
     { docId := docId, chunkIndex := p.1, startPos := p.2.1, endPos := p.2.2.1,
       title := title, heading := none, chunkText := p.2.2.2 }))

/-- Store semantics of INSERT OR UPDATE on a table with a UNIQUE key:
when a row with the key exists it is updated in place, otherwise the row
is appended. -/
def upsertRow {K V : Type} [DecidableEq K] (t : List (K × V)) (k : K) (v : V) :
    List (K × V) :=
  if t.any (fun p => decide (p.1 = k)) then
    t.map (fun p => if p.1 = k then (k, v) else p)
  else t ++ [(k, v)]

/-- Applies a batch of keyed upserts left to right. -/
def upsertBatch {K V : Type} [DecidableEq K] (t : List (K × V))
    (rows : List (K × V)) : List (K × V) :=
  rows.foldl (fun acc r => upsertRow acc r.1 r.2) t

/-- A joined output row is sourced from the tables of the store, scoped
to the given customer id: it comes from an order of that customer, its
product fields come from the matching product row, and its tracking code
is null exactly when no shipment row matches (LEFT JOIN). -/
def orderRowFromDB (db : DB) (cid : Int) (r : OrderRow) : Prop :=
  ∃ o ∈ db.orders, o.customerId = cid ∧ ∃ p ∈ db.products,
    p.productId = o.productId ∧
    r.orderId = o.orderId ∧ r.orderDate = o.orderDate ∧ r.status = o.status ∧
    r.productId = p.productId ∧ r.productName = p.name ∧
    r.category = p.category ∧ r.price = p.price ∧
    ((r.trackingCode = none ∧ ∀ s ∈ db.shipments, s.orderId ≠ o.orderId) ∨
     ∃ s ∈ db.shipments, s.orderId = o.orderId ∧ r.trackingCode = some s.trackingCode)

/-- Postcondition of sql_last_orders for a resolved customer: at most
limit rows, newest first, every row sourced from the join scoped to the
customer. -/
def lastOrdersPost (db : DB) (cid : Int) (limit : Int) (rows : List OrderRow) : Prop :=
  rows.length ≤ limit.toNat ∧
  (rows.map (fun r => r.orderDate)).Pairwise (fun a b => b ≤ a) ∧
  ∀ r ∈ rows, orderRowFromDB db cid r

/-- Specification bundle of make_chunks for text length L, window size S
and overlap O with L > 0, S > 0, 0 <= O < S: exact window count
ceil(L / (S - O)), starts advancing by the step S - O, every triple
(start, end, chunk) recording the slice text[start : end] with
end = start + len(chunk) <= L, and the windows covering every character
position. -/
def chunkCoverSpec (text : List Char) (size overlap : Int) : Prop :=
  (makeChunks text size overlap).length
      = (text.length + (size - overlap).toNat - 1) / (size - overlap).toNat ∧
  (∀ m t, (makeChunks text size overlap)[m]? = some t →
      t.1 = m * (size - overlap).toNat) ∧
  (∀ t ∈ makeChunks text size overlap,
      t.2.2 = pySlice text t.1 size.toNat ∧
      t.2.1 = t.1 + t.2.2.length ∧ t.2.1 ≤ text.length ∧
      t.2.2 = (text.drop t.1).take (t.2.1 - t.1)) ∧
  (∀ p, p < text.length →
      ∃ t ∈ makeChunks text size overlap, t.1 ≤ p ∧ p < t.2.1)

/-- The table associates the key to exactly this row: some entry carries
the key and every entry carrying the key is this row. -/
def bindsAll {K V : Type} (t : List (K × V)) (k : K) (v : V) : Prop :=
  (∃ p ∈ t, p.1 = k) ∧ ∀ p ∈ t, p.1 = k → p = (k, v)

/-- A small concrete store used by the witnesses: alice resolves to
customer id 7, bob to 2; order 100 (owned by 7) has a shipment, order
101 (owned by 7) has none, order 102 is owned by 2. -/
def dbEx : DB :=
  { customers := [{ email := "alice@example.com", customerId := 7 },
                  { email := "bob@example.com", customerId := 2 }],
    orders := [{ orderId := 100, customerId := 7, productId := 11,
                 orderDate := 20240105, status := "Shipped" },
               { orderId := 101, customerId := 7, productId := 12,
                 orderDate := 20240110, status := "Processing" },
               { orderId := 102, customerId := 2, productId := 11,
                 orderDate := 20240107, status := "Shipped" }],
    products := [{ productId := 11, name := "Widget", category := "Gadgets",
                   price := 19, description := none, embedding := [1, 2] },
                 { productId := 12, name := "Gizmo", category := "Gadgets",
                   price := 29, description := some "a gizmo", embedding := [0, 1] }],
    shipments := [{ orderId := 100, trackingCode := "DHL7788" }],
    docChunks := [{ chunkId := 1, docId := "faq", title := "FAQ",
                    chunkText := "Returns are accepted within 30 days.",
                    embedding := [1, 0] }] }

lemma getCustomerId_eq_none {db : DB} {email : String}
    (h : ∀ c ∈ db.customers, c.email ≠ email) : getCustomerId db email = none := by
  have hf : db.customers.find? (fun c => c.email == email) = none :=
    List.find?_eq_none.mpr (by intro c hc; simpa using h c hc)
  simp [getCustomerId, hf]

/-- C1: for an email with no Customers row, each of the three order tools
returns the structured empty or null result carrying the
"unknown user_email" note, and its trace contains no order-data query. -/
theorem unknown_email_order_tools_refuse (db : DB) (email : String)
    (h : ∀ c ∈ db.customers, c.email ≠ email) (limit oid startD endD : Int) :
    (sqlLastOrdersForward db email limit).2 =
        { orders := [], note := some "unknown user_email" } ∧
    ((sqlLastOrdersForward db email limit).1.all (fun q => !isOrderDataQuery q)) = true ∧
    (sqlOrderByIdForward db email oid).2 =
        { order := none, note := some "unknown user_email" } ∧
    ((sqlOrderByIdForward db email oid).1.all (fun q => !isOrderDataQuery q)) = true ∧
    (sqlOrdersInRangeForward db email startD endD).2 =
        { orders := [], note := some "unknown user_email" } ∧
    ((sqlOrdersInRangeForward db email startD endD).1.all (fun q => !isOrderDataQuery q)) = true := by
  have hn := getCustomerId_eq_none h
  refine ⟨?_, ?_, ?_, ?_, ?_, ?_⟩ <;>
    simp [sqlLastOrdersForward, sqlOrderByIdForward, sqlOrdersInRangeForward, hn,
      isOrderDataQuery]

/-- Witness for C1 at a concrete store and the unknown email carol. -/
theorem unknown_email_order_tools_refuse_witness :
    (sqlLastOrdersForward dbEx "carol@example.com" 3).2 =
        { orders := [], note := some "unknown user_email" } ∧
    ((sqlLastOrdersForward dbEx "carol@example.com" 3).1.all (fun q => !isOrderDataQuery q)) = true ∧
    (sqlOrderByIdForward dbEx "carol@example.com" 100).2 =
        { order := none, note := some "unknown user_email" } ∧
    ((sqlOrderByIdForward dbEx "carol@example.com" 100).1.all (fun q => !isOrderDataQuery q)) = true ∧
    (sqlOrdersInRangeForward dbEx "carol@example.com" 20240101 20241231).2 =
        { orders := [], note := some "unknown user_email" } ∧
    ((sqlOrdersInRangeForward dbEx "carol@example.com" 20240101 20241231).1.all
        (fun q => !isOrderDataQuery q)) = true :=
  unknown_email_order_tools_refuse dbEx "carol@example.com" (by decide) 3 100 20240101 20241231

/-- C10: a non-positive limit is clamped below to 1 (so at most one row
comes back and the issued LIMIT is 1), a limit of at least 1 is used
unchanged (no upper cap), and the omitted limit defaults to 30. -/
theorem last_orders_nonpositive_limit_clamped (db : DB) (email : String) (limit : Int)
    (h : limit ≤ 0) :
    (sqlLastOrdersForward db email limit).2.orders.length ≤ 1 ∧
    effectiveLimit limit = 1 ∧
    (∀ l : Int, 1 ≤ l → (effectiveLimit l : Int) = l) ∧
    (∀ cid lim, SQLQuery.lastOrders cid lim ∈ (sqlLastOrdersForward db email limit).1 →
        lim = effectiveLimit limit) ∧
    sqlLastOrdersForward db email = sqlLastOrdersForward db email 30 := by
  have hone : effectiveLimit limit = 1 := by
    have : max 1 limit = 1 := max_eq_left (by omega)
    simp [effectiveLimit, this]
  refine ⟨?_, hone, ?_, ?_, rfl⟩
  · cases hc : getCustomerId db email with
    | none => simp [sqlLastOrdersForward, hc]
    | some cid =>
        simp only [sqlLastOrdersForward, hc, hone]
        exact List.length_take_le 1 _
  · intro l hl
    have hm : max 1 l = l := max_eq_right hl
    simp [effectiveLimit, hm, Int.toNat_of_nonneg (by omega : (0:Int) ≤ l)]
  · intro cid lim hmem
    cases hc : getCustomerId db email with
    | none => simp [sqlLastOrdersForward, hc] at hmem
    | some c =>
        simp [sqlLastOrdersForward, hc] at hmem
        exact hmem.2

/-- Witness for C10: limit -5 on the concrete store yields at most one
row, the clamped LIMIT is 1, and limit 7 is not capped. -/
theorem last_orders_nonpositive_limit_clamped_witness :
    (sqlLastOrdersForward dbEx "alice@example.com" (-5)).2.orders.length ≤ 1 ∧
    effectiveLimit (-5) = 1 ∧
    (effectiveLimit 7 : Int) = 7 := by
  have h := last_orders_nonpositive_limit_clamped dbEx "alice@example.com" (-5) (by decide)
  exact ⟨h.1, h.2.1, h.2.2.1 7 (by decide)⟩

/-- C4: a query that trims to the empty string makes both search tools
return the structured empty result with the "empty query" note, with no
similarity query in the trace. -/
theorem empty_query_short_circuits (db : DB) (embed : String → String → List Int)
    (embedConfig query : String) (h : pyStrip query = "") (k kp : Int) (pm : Option Int) :
    (docSearchForward db embed embedConfig query k).2 =
        .ok { snippets := [], note := some "empty query" } ∧
    ((docSearchForward db embed embedConfig query k).1.all (fun q => !isSimilarityQuery q)) = true ∧
    (productSearchForward db embed embedConfig query kp pm).2 =
        .ok { products := [], note := some "empty query" } ∧
    ((productSearchForward db embed embedConfig query kp pm).1.all
        (fun q => !isSimilarityQuery q)) = true := by
  refine ⟨?_, ?_, ?_, ?_⟩ <;>
    simp [docSearchForward, productSearchForward, h, isSimilarityQuery]

/-- Witness for C4 at an all-whitespace query. -/
theorem empty_query_short_circuits_witness :
    (docSearchForward dbEx (fun _ _ => [1, 0]) "my-openai-config" "   " 3).2 =
        .ok { snippets := [], note := some "empty query" } ∧
    ((docSearchForward dbEx (fun _ _ => [1, 0]) "my-openai-config" "   " 3).1.all
        (fun q => !isSimilarityQuery q)) = true ∧
    (productSearchForward dbEx (fun _ _ => [1, 0]) "my-openai-config" "   " 5 none).2 =
        .ok { products := [], note := some "empty query" } ∧
    ((productSearchForward dbEx (fun _ _ => [1, 0]) "my-openai-config" "   " 5 none).1.all
        (fun q => !isSimilarityQuery q)) = true :=
  empty_query_short_circuits dbEx (fun _ _ => [1, 0]) "my-openai-config" "   "
    (by decide) 3 5 none

lemma docSearch_snippets_le {db : DB} {embed : String → String → List Int}
    {embedConfig query : String} {k : Int} {res : DocSearchOut}
    (h : (docSearchForward db embed embedConfig query k).2 = .ok res) :
    res.snippets.length ≤ docTopK k := by
  unfold docSearchForward at h
  by_cases hq : (pyStrip query == "") = true
  · simp only [hq, if_pos] at h
    simp at h
    subst h
    exact Nat.zero_le _
  · simp only [Bool.not_eq_true] at hq
    simp only [hq, Bool.false_eq_true, if_false] at h
    cases hv : validateConfigName embedConfig with
    | error msg => rw [hv] at h; simp at h
    | ok cfg =>
        rw [hv] at h
        simp at h
        subst h
        simp only [List.length_map]
        exact List.length_take_le _ _

lemma productSearch_products_le {db : DB} {embed : String → String → List Int}
    {embedConfig query : String} {k : Int} {pm : Option Int} {res : ProductSearchOut}
    (h : (productSearchForward db embed embedConfig query k pm).2 = .ok res) :
    res.products.length ≤ productTopK k := by
  unfold productSearchForward at h
  by_cases hq : (pyStrip query == "") = true
  · simp only [hq, if_pos] at h
    simp at h
    subst h
    exact Nat.zero_le _
  · simp only [Bool.not_eq_true] at hq
    simp only [hq, Bool.false_eq_true, if_false] at h
    cases hv : validateConfigName embedConfig with
    | error msg => rw [hv] at h; simp at h
    | ok cfg =>
        rw [hv] at h
        simp at h
        subst h
        simp only [List.length_map]
        exact List.length_take_le _ _

/-- C5: the effective result count is clamped to [1, 10] for doc search
(default 3) and [1, 20] for product search (default 5), so the tools
return at most 10 and 20 results regardless of the supplied k. -/
theorem search_topk_clamped (db : DB) (embed : String → String → List Int)
    (embedConfig query : String) (k kp : Int) (pm : Option Int) :
    1 ≤ docTopK k ∧ docTopK k ≤ 10 ∧
    1 ≤ productTopK kp ∧ productTopK kp ≤ 20 ∧
    (∀ res, (docSearchForward db embed embedConfig query k).2 = .ok res →
        res.snippets.length ≤ 10) ∧
    (∀ res, (productSearchForward db embed embedConfig query kp pm).2 = .ok res →
        res.products.length ≤ 20) ∧
    docSearchForward db embed embedConfig query = docSearchForward db embed embedConfig query 3 ∧
    productSearchForward db embed embedConfig query =
      productSearchForward db embed embedConfig query 5 none := by
  have hd1 : 1 ≤ docTopK k ∧ docTopK k ≤ 10 := by unfold docTopK; omega
  have hp1 : 1 ≤ productTopK kp ∧ productTopK kp ≤ 20 := by unfold productTopK; omega
  refine ⟨hd1.1, hd1.2, hp1.1, hp1.2, ?_, ?_, rfl, rfl⟩
  · intro res h
    exact le_trans (docSearch_snippets_le h) hd1.2
  · intro res h
    exact le_trans (productSearch_products_le h) hp1.2

/-- Witness for C5: oversized and negative counts on the concrete store. -/
theorem search_topk_clamped_witness :
    1 ≤ docTopK 50 ∧ docTopK 50 ≤ 10 ∧
    1 ≤ productTopK (-4) ∧ productTopK (-4) ≤ 20 ∧
    (docSearchForward dbEx (fun _ _ => [1, 0]) "my-openai-config" "refund" 50).2 =
      .ok { snippets := [{ chunkId := 1, docId := "faq", title := "FAQ",
                           snippet := "Returns are accepted within 30 days.",
                           score := 1 }], note := none } ∧
    ({ snippets := [{ chunkId := 1, docId := "faq", title := "FAQ",
                      snippet := "Returns are accepted within 30 days.",
                      score := 1 }], note := none } : DocSearchOut).snippets.length ≤ 10 := by
  have h := search_topk_clamped dbEx (fun _ _ => [1, 0]) "my-openai-config" "refund" 50 (-4) none
  refine ⟨h.1, h.2.1, h.2.2.1, h.2.2.2.1, rfl, ?_⟩
  exact h.2.2.2.2.1
    { snippets := [{ chunkId := 1, docId := "faq", title := "FAQ",
                     snippet := "Returns are accepted within 30 days.",
                     score := 1 }], note := none } rfl

/-- C6: shipping_status always returns a structured object carrying the
endpoint and correlation id; every exception inside the try block yields
an error object with no httpStatus and no response, and a completed call
yields the status plus the JSON-normalized body with no error. -/
theorem shipping_status_structured (defaultUrl orderStatus trackingNumber freshUuid : String)
    (requestId url : Option String) (timeoutSec : Int) (outcome : HttpOutcome) :
    (shippingForward defaultUrl orderStatus trackingNumber freshUuid outcome
        requestId url timeoutSec).endpoint = rstripSlash (pyOr url defaultUrl) ∧
    (shippingForward defaultUrl orderStatus trackingNumber freshUuid outcome
        requestId url timeoutSec).requestId = pyOr requestId freshUuid ∧
    (∀ n m, outcome = .failure n m →
        (shippingForward defaultUrl orderStatus trackingNumber freshUuid outcome
            requestId url timeoutSec).httpStatus = none ∧
        (shippingForward defaultUrl orderStatus trackingNumber freshUuid outcome
            requestId url timeoutSec).response = none ∧
        (shippingForward defaultUrl orderStatus trackingNumber freshUuid outcome
            requestId url timeoutSec).error = some (n ++ ": " ++ m)) ∧
    (∀ s j b t, outcome = .success s j b t →
        (shippingForward defaultUrl orderStatus trackingNumber freshUuid outcome
            requestId url timeoutSec).httpStatus = some s ∧
        (shippingForward defaultUrl orderStatus trackingNumber freshUuid outcome
            requestId url timeoutSec).error = none ∧
        (shippingForward defaultUrl orderStatus trackingNumber freshUuid outcome
            requestId url timeoutSec).response =
          some (if j then b
                else JVal.obj [("status", JVal.num s), ("body", JVal.str t)])) := by
  cases outcome with
  | failure excName excMsg =>
      refine ⟨rfl, rfl, ?_, ?_⟩
      · intro n m h
        cases h
        exact ⟨rfl, rfl, rfl⟩
      · intro s j b t h
        cases h
  | success s j b t =>
      refine ⟨rfl, rfl, ?_, ?_⟩
      · intro n m h
        cases h
      · intro s2 j2 b2 t2 h
        cases h
        exact ⟨rfl, rfl, rfl⟩

/-- Witness for C6: an unreachable endpoint (connection exception) at the
default URL produces the error object with no httpStatus and no response. -/
theorem shipping_status_structured_witness :
    (shippingForward "http://localhost:52773/api/shipping/status" "Processing" "DHL7788"
        "uuid-1234" (.failure "ConnectionError" "endpoint unreachable") none none 10).httpStatus
        = none ∧
    (shippingForward "http://localhost:52773/api/shipping/status" "Processing" "DHL7788"
        "uuid-1234" (.failure "ConnectionError" "endpoint unreachable") none none 10).response
        = none ∧
    (shippingForward "http://localhost:52773/api/shipping/status" "Processing" "DHL7788"
        "uuid-1234" (.failure "ConnectionError" "endpoint unreachable") none none 10).error
        = some "ConnectionError: endpoint unreachable" ∧
    (shippingForward "http://localhost:52773/api/shipping/status" "Processing" "DHL7788"
        "uuid-1234" (.failure "ConnectionError" "endpoint unreachable") none none 10).endpoint
        = "http://localhost:52773/api/shipping/status" ∧
    (shippingForward "http://localhost:52773/api/shipping/status" "Processing" "DHL7788"
        "uuid-1234" (.failure "ConnectionError" "endpoint unreachable") none none 10).requestId
        = "uuid-1234" := by
  have h := shipping_status_structured "http://localhost:52773/api/shipping/status" "Processing"
    "DHL7788" "uuid-1234" none none 10 (.failure "ConnectionError" "endpoint unreachable")
  have hf := h.2.2.1 "ConnectionError" "endpoint unreachable" rfl
  refine ⟨hf.1, hf.2.1, ?_, ?_, ?_⟩
  · rw [hf.2.2]; decide
  · rw [h.1]; decide
  · rw [h.2.1]; decide

lemma validateConfigName_error {name : String}
    (hbad : name = "" ∨ ¬ ∀ c ∈ name.toList, allowedConfigChar c = true) :
    validateConfigName name = .error invalidConfigMsg := by
  unfold validateConfigName
  rw [if_neg]
  intro hcond
  rw [Bool.and_eq_true, decide_eq_true_iff, List.all_eq_true] at hcond
  rcases hbad with h | h
  · exact hcond.1 h
  · exact h hcond.2

lemma validateConfigName_ok {name : String} (h1 : name ≠ "")
    (h2 : ∀ c ∈ name.toList, allowedConfigChar c = true) :
    validateConfigName name = .ok name := by
  unfold validateConfigName
  rw [if_pos]
  rw [Bool.and_eq_true, decide_eq_true_iff, List.all_eq_true]
  exact ⟨h1, h2⟩

/-- Counterexample for C7 as stated: with an invalid config name and a
non-empty query, the doc search tool does raise the validation error,
but only after the connection healthcheck SELECT 1 has been executed
against the store, so its trace of executed SQL statements is non-empty
rather than empty. -/
theorem invalid_config_sql_already_executed :
    (docSearchForward dbEx (fun _ _ => [1, 0]) "bad;name" "refund policy" 3).2 =
        Except.error invalidConfigMsg ∧
    (docSearchForward dbEx (fun _ _ => [1, 0]) "bad;name" "refund policy" 3).1 =
        [SQLQuery.healthcheck] ∧
    (docSearchForward dbEx (fun _ _ => [1, 0]) "bad;name" "refund policy" 3).1 ≠ [] := by
  refine ⟨rfl, rfl, by decide⟩

/-- C7 (amended): an embedding config name failing the allow-list raises
the ValueError before any similarity or search SQL is issued (only the
connection healthcheck precedes it), and a name matching the allow-list
passes validation unchanged. -/
theorem invalid_config_rejected_before_search (db : DB)
    (embed : String → String → List Int) (name query : String) (k kp : Int)
    (pm : Option Int) (hq : pyStrip query ≠ "")
    (hbad : name = "" ∨ ¬ ∀ c ∈ name.toList, allowedConfigChar c = true) :
    (docSearchForward db embed name query k).2 = Except.error invalidConfigMsg ∧
    ((docSearchForward db embed name query k).1.all (fun q => !isSimilarityQuery q)) = true ∧
    (productSearchForward db embed name query kp pm).2 = Except.error invalidConfigMsg ∧
    ((productSearchForward db embed name query kp pm).1.all
        (fun q => !isSimilarityQuery q)) = true ∧
    ∀ good : String, good ≠ "" → (∀ c ∈ good.toList, allowedConfigChar c = true) →
        validateConfigName good = Except.ok good := by
  have hv := validateConfigName_error hbad
  have hqb : (pyStrip query == "") = false := by
    rw [beq_eq_false_iff_ne]
    exact hq
  refine ⟨?_, ?_, ?_, ?_, fun g hg1 hg2 => validateConfigName_ok hg1 hg2⟩ <;>
    simp [docSearchForward, productSearchForward, hqb, hv, isSimilarityQuery]

/-- Witness for C7 (amended) at the name bad;name and query refund. -/
theorem invalid_config_rejected_before_search_witness :
    (docSearchForward dbEx (fun _ _ => [1, 0]) "bad;name" "refund" 3).2 =
        Except.error invalidConfigMsg ∧
    ((docSearchForward dbEx (fun _ _ => [1, 0]) "bad;name" "refund" 3).1.all
        (fun q => !isSimilarityQuery q)) = true ∧
    (productSearchForward dbEx (fun _ _ => [1, 0]) "bad;name" "refund" 5 none).2 =
        Except.error invalidConfigMsg ∧
    ((productSearchForward dbEx (fun _ _ => [1, 0]) "bad;name" "refund" 5 none).1.all
        (fun q => !isSimilarityQuery q)) = true ∧
    validateConfigName "my-openai-config" = Except.ok "my-openai-config" := by
  have h := invalid_config_rejected_before_search dbEx (fun _ _ => [1, 0]) "bad;name" "refund"
    3 5 none (by decide) (Or.inr (by decide))
  exact ⟨h.1, h.2.1, h.2.2.1, h.2.2.2.1, h.2.2.2.2 "my-openai-config" (by decide) (by decide)⟩

lemma mem_of_head?_eq_some {α : Type} {l : List α} {a : α} (h : l.head? = some a) :
    a ∈ l := by
  cases l with
  | nil => simp at h
  | cons x xs =>
      simp at h
      subst h
      exact List.mem_cons_self _ _

lemma of_mem_shipmentJoin {db : DB} {o : Order} {p : Product} {r : OrderRow}
    (h : r ∈ shipmentJoin db o p) :
    (r = mkOrderRow o p none ∧ ∀ s ∈ db.shipments, s.orderId ≠ o.orderId) ∨
    ∃ s ∈ db.shipments, s.orderId = o.orderId ∧ r = mkOrderRow o p (some s.trackingCode) := by
  simp only [shipmentJoin] at h
  by_cases hE : (db.shipments.filter (fun s => s.orderId == o.orderId)).isEmpty = true
  · rw [if_pos hE] at h
    left
    refine ⟨by simpa using h, ?_⟩
    rw [List.isEmpty_iff, List.filter_eq_nil_iff] at hE
    intro s hs
    simpa using hE s hs
  · rw [if_neg hE] at h
    right
    rw [List.mem_map] at h
    obtain ⟨s, hsf, hr⟩ := h
    rw [List.mem_filter] at hsf
    exact ⟨s, hsf.1, by simpa using hsf.2, hr.symm⟩

lemma of_mem_orderJoinRows {db : DB} {pred : Order → Bool} {r : OrderRow}
    (h : r ∈ orderJoinRows db pred) :
    ∃ o ∈ db.orders, pred o = true ∧ ∃ p ∈ db.products,
      p.productId = o.productId ∧ r ∈ shipmentJoin db o p := by
  unfold orderJoinRows at h
  rw [List.mem_flatMap] at h
  obtain ⟨o, ho, hin⟩ := h
  by_cases hp : pred o = true
  · rw [if_pos hp, List.mem_flatMap] at hin
    obtain ⟨p, hpm, hin2⟩ := hin
    by_cases hpe : (p.productId == o.productId) = true
    · rw [if_pos hpe] at hin2
      exact ⟨o, ho, hp, p, hpm, by simpa using hpe, hin2⟩
    · rw [if_neg hpe] at hin2
      cases hin2
  · rw [if_neg hp] at hin
    cases hin

lemma orderJoinRows_nil {db : DB} {pred : Order → Bool}
    (h : ∀ o ∈ db.orders, pred o = false) : orderJoinRows db pred = [] := by
  rw [List.eq_nil_iff_forall_not_mem]
  intro r hr
  obtain ⟨o, ho, hp, _⟩ := of_mem_orderJoinRows hr
  rw [h o ho] at hp
  cases hp

lemma orderRowFromDB_of_mem {db : DB} {cid : Int} {pred : Order → Bool} {r : OrderRow}
    (hpred : ∀ o, pred o = true → o.customerId = cid)
    (h : r ∈ orderJoinRows db pred) : orderRowFromDB db cid r := by
  obtain ⟨o, ho, hp, p, hpm, hpe, hsj⟩ := of_mem_orderJoinRows h
  refine ⟨o, ho, hpred o hp, p, hpm, hpe, ?_⟩
  rcases of_mem_shipmentJoin hsj with ⟨hr, hnone⟩ | ⟨s, hs, hsid, hr⟩
  · subst hr
    exact ⟨rfl, rfl, rfl, rfl, rfl, rfl, rfl, Or.inl ⟨rfl, hnone⟩⟩
  · subst hr
    exact ⟨rfl, rfl, rfl, rfl, rfl, rfl, rfl, Or.inr ⟨s, hs, hsid, rfl⟩⟩

/-- C2: sql_order_by_id returns data only for an order of the resolved
customer; an order id owned by another customer yields exactly the same
"order not found or not owned by this user" result as a nonexistent
order id, so the two cases are indistinguishable. -/
theorem order_by_id_ownership_scoped (db : DB) (email : String) (cid oid : Int)
    (hres : getCustomerId db email = some cid) :
    (∀ r, (sqlOrderByIdForward db email oid).2.order = some r →
        r.orderId = oid ∧ orderRowFromDB db cid r) ∧
    ((∀ o ∈ db.orders, o.orderId = oid → o.customerId ≠ cid) →
        (sqlOrderByIdForward db email oid).2 =
          { order := none, note := some "order not found or not owned by this user" }) ∧
    (∀ oid2 : Int, (∀ o ∈ db.orders, o.orderId ≠ oid2) →
        (sqlOrderByIdForward db email oid2).2 =
          { order := none, note := some "order not found or not owned by this user" }) ∧
    ((∀ o ∈ db.orders, o.orderId = oid → o.customerId ≠ cid) →
      ∀ oid2 : Int, (∀ o ∈ db.orders, o.orderId ≠ oid2) →
        (sqlOrderByIdForward db email oid).2 = (sqlOrderByIdForward db email oid2).2) := by
  have part1 : ∀ r, (sqlOrderByIdForward db email oid).2.order = some r →
      r.orderId = oid ∧ orderRowFromDB db cid r := by
    intro r hsome
    simp only [sqlOrderByIdForward, hres] at hsome
    cases hh : (orderJoinRows db (fun o => o.customerId == cid && o.orderId == oid)).head? with
    | none => rw [hh] at hsome; simp at hsome
    | some r0 =>
        rw [hh] at hsome
        simp at hsome
        rw [← hsome]
        have hmem := mem_of_head?_eq_some hh
        obtain ⟨o, ho, hp, p, hpm, hpe, hsj⟩ := of_mem_orderJoinRows hmem
        rw [Bool.and_eq_true, beq_iff_eq, beq_iff_eq] at hp
        have hid : r0.orderId = oid := by
          rcases of_mem_shipmentJoin hsj with ⟨hr, _⟩ | ⟨s, _, _, hr⟩ <;>
            · subst hr
              simpa [mkOrderRow] using hp.2
        refine ⟨hid, orderRowFromDB_of_mem ?_ hmem⟩
        intro o2 hp2
        rw [Bool.and_eq_true, beq_iff_eq, beq_iff_eq] at hp2
        exact hp2.1
  have part2 : (∀ o ∈ db.orders, o.orderId = oid → o.customerId ≠ cid) →
      (sqlOrderByIdForward db email oid).2 =
        { order := none, note := some "order not found or not owned by this user" } := by
    intro hno
    have hnil : orderJoinRows db (fun o => o.customerId == cid && o.orderId == oid) = [] := by
      apply orderJoinRows_nil
      intro o ho
      rw [Bool.eq_false_iff]
      intro htrue
      rw [Bool.and_eq_true, beq_iff_eq, beq_iff_eq] at htrue
      exact hno o ho htrue.2 htrue.1
    simp [sqlOrderByIdForward, hres, hnil]
  have part3 : ∀ oid2 : Int, (∀ o ∈ db.orders, o.orderId ≠ oid2) →
      (sqlOrderByIdForward db email oid2).2 =
        { order := none, note := some "order not found or not owned by this user" } := by
    intro oid2 hno
    have hnil : orderJoinRows db (fun o => o.customerId == cid && o.orderId == oid2) = [] := by
      apply orderJoinRows_nil
      intro o ho
      rw [Bool.eq_false_iff]
      intro htrue
      rw [Bool.and_eq_true, beq_iff_eq, beq_iff_eq] at htrue
      exact hno o ho htrue.2
    simp [sqlOrderByIdForward, hres, hnil]
  exact ⟨part1, part2, part3,
    fun h1 oid2 h2 => (part2 h1).trans ((part3 oid2 h2).symm)⟩

/-- Witness for C2: order 100 belongs to customer 7, so querying it with
the email of customer 2 matches the nonexistent order 999 exactly. -/
theorem order_by_id_ownership_scoped_witness :
    (sqlOrderByIdForward dbEx "bob@example.com" 100).2 =
      { order := none, note := some "order not found or not owned by this user" } ∧
    (sqlOrderByIdForward dbEx "bob@example.com" 999).2 =
      { order := none, note := some "order not found or not owned by this user" } ∧
    (sqlOrderByIdForward dbEx "bob@example.com" 100).2 =
      (sqlOrderByIdForward dbEx "bob@example.com" 999).2 := by
  have h := order_by_id_ownership_scoped dbEx "bob@example.com" 2 100 (by decide)
  have ha := h.2.1 (by decide)
  have hb := h.2.2.1 999 (by decide)
  exact ⟨ha, hb, ha.trans hb.symm⟩

/-- C3: for a resolved customer and limit at least 1, sql_last_orders
returns at most limit rows, ordered by date descending, each joined with
its product fields and its nullable shipment tracking code. -/
theorem last_orders_bounded_sorted_scoped (db : DB) (email : String) (cid limit : Int)
    (hres : getCustomerId db email = some cid) (hlim : 1 ≤ limit) :
    lastOrdersPost db cid limit (sqlLastOrdersForward db email limit).2.orders := by
  simp only [sqlLastOrdersForward, hres]
  refine ⟨?_, ?_, ?_⟩
  · have h1 : effectiveLimit limit = limit.toNat := by
      unfold effectiveLimit
      omega
    exact h1 ▸ List.length_take_le _ _
  · have hs : List.Sorted dateDescR
        (List.insertionSort dateDescR (orderJoinRows db (fun o => o.customerId == cid))) :=
      List.sorted_insertionSort dateDescR _
    have hs2 := List.Pairwise.sublist (List.take_sublist (effectiveLimit limit) _) hs
    rw [List.pairwise_map]
    exact hs2
  · intro r hr
    have h1 := List.mem_of_mem_take hr
    have h2 := (List.perm_insertionSort dateDescR _).mem_iff.mp h1
    refine orderRowFromDB_of_mem ?_ h2
    intro o h
    simpa using h

/-- Witness for C3: alice resolves to customer id 7 and limit 3 on the
concrete store. -/
theorem last_orders_bounded_sorted_scoped_witness :
    lastOrdersPost dbEx 7 3 (sqlLastOrdersForward dbEx "alice@example.com" 3).2.orders :=
  last_orders_bounded_sorted_scoped dbEx "alice@example.com" 7 3 (by decide) (by decide)

lemma pySlice_length (text : List Char) (i size : Nat) :
    (pySlice text i size).length = min size (text.length - i) := by
  simp [pySlice]

lemma makeChunksAux_pos {text : List Char} {size step i : Nat}
    (hsize : 1 ≤ size) (h : i < text.length) :
    makeChunksAux text size step i =
      (i, i + (pySlice text i size).length, pySlice text i size) ::
        makeChunksAux text size step (i + max 1 step) := by
  rw [makeChunksAux]
  have hlen := pySlice_length text i size
  have hne : (pySlice text i size).isEmpty = false := by
    cases hE : (pySlice text i size).isEmpty
    · rfl
    · exfalso
      rw [List.isEmpty_iff] at hE
      have hzero := congrArg List.length hE
      rw [hlen] at hzero
      simp at hzero
      omega
  simp [h, hne]

lemma makeChunksAux_neg {text : List Char} {size step i : Nat}
    (h : ¬ i < text.length) : makeChunksAux text size step i = [] := by
  rw [makeChunksAux]
  simp [h]

lemma ceil_div_shift (step d : Nat) (hs : 1 ≤ step) (hd : 1 ≤ d) :
    (d + step - 1) / step = (d - step + step - 1) / step + 1 := by
  rcases le_or_lt d step with hle | hlt
  · have e1 : d + step - 1 = (d - 1) + step := by omega
    have e2 : d - step + step - 1 = step - 1 := by omega
    rw [e1, e2, Nat.add_div_right _ (by omega : 0 < step),
      Nat.div_eq_of_lt (by omega : d - 1 < step),
      Nat.div_eq_of_lt (by omega : step - 1 < step)]
  · have e1 : d + step - 1 = (d - 1) + step := by omega
    have e2 : d - step + step - 1 = (d - step - 1) + step := by omega
    have e3 : d - 1 = (d - step - 1) + step := by omega
    have l1 : (d + step - 1) / step = (d - 1) / step + 1 := by
      rw [e1, Nat.add_div_right _ (by omega : 0 < step)]
    have l2 : (d - step + step - 1) / step = (d - step - 1) / step + 1 := by
      rw [e2, Nat.add_div_right _ (by omega : 0 < step)]
    have l3 : (d - 1) / step = (d - step - 1) / step + 1 := by
      rw [e3, Nat.add_div_right _ (by omega : 0 < step)]
    rw [l1, l2, l3]

lemma makeChunksAux_length {text : List Char} {size step : Nat}
    (hsize : 1 ≤ size) (hstep : 1 ≤ step) :
    ∀ n i, text.length - i ≤ n →
      (makeChunksAux text size step i).length = (text.length - i + step - 1) / step := by
  intro n
  induction n with
  | zero =>
      intro i hi
      have h : ¬ i < text.length := by omega
      rw [makeChunksAux_neg h]
      have e : text.length - i + step - 1 = step - 1 := by omega
      rw [e, Nat.div_eq_of_lt (by omega)]
      rfl
  | succ n ih =>
      intro i hi
      by_cases h : i < text.length
      · rw [makeChunksAux_pos hsize h, max_eq_right hstep, List.length_cons,
          ih (i + step) (by omega)]
        have hd : 1 ≤ text.length - i := by omega
        have key := ceil_div_shift step (text.length - i) hstep hd
        have e : text.length - i - step = text.length - (i + step) := by omega
        rw [e] at key
        exact key.symm
      · rw [makeChunksAux_neg h]
        have e : text.length - i + step - 1 = step - 1 := by omega
        rw [e, Nat.div_eq_of_lt (by omega)]
        rfl

lemma makeChunksAux_start {text : List Char} {size step : Nat}
    (hsize : 1 ≤ size) (hstep : 1 ≤ step) :
    ∀ n i, text.length - i ≤ n → ∀ m t,
      (makeChunksAux text size step i)[m]? = some t → t.1 = i + m * step := by
  intro n
  induction n with
  | zero =>
      intro i hi m t ht
      rw [makeChunksAux_neg (by omega)] at ht
      simp at ht
  | succ n ih =>
      intro i hi m t ht
      by_cases h : i < text.length
      · rw [makeChunksAux_pos hsize h, max_eq_right hstep] at ht
        cases m with
        | zero =>
            simp only [List.getElem?_cons_zero, Option.some.injEq] at ht
            rw [← ht]
            simp
        | succ m =>
            rw [List.getElem?_cons_succ] at ht
            rw [ih (i + step) (by omega) m t ht]
            ring
      · rw [makeChunksAux_neg h] at ht
        simp at ht

lemma makeChunksAux_mem {text : List Char} {size step : Nat} (hsize : 1 ≤ size) :
    ∀ n i, text.length - i ≤ n → ∀ t ∈ makeChunksAux text size step i,
      t.2.2 = pySlice text t.1 size ∧ t.2.1 = t.1 + t.2.2.length ∧
      t.2.1 ≤ text.length := by
  intro n
  induction n with
  | zero =>
      intro i hi t ht
      rw [makeChunksAux_neg (by omega)] at ht
      cases ht
  | succ n ih =>
      intro i hi t ht
      by_cases h : i < text.length
      · rw [makeChunksAux_pos hsize h] at ht
        rcases List.mem_cons.mp ht with rfl | ht2
        · refine ⟨rfl, rfl, ?_⟩
          have hlen := pySlice_length text i size
          simp only []
          omega
        · have hm : 1 ≤ max 1 step := le_max_left _ _
          exact ih (i + max 1 step) (by omega) t ht2
      · rw [makeChunksAux_neg h] at ht
        cases ht

lemma makeChunksAux_cover {text : List Char} {size step : Nat}
    (hsize : 1 ≤ size) (hstep : 1 ≤ step) (hss : step ≤ size) :
    ∀ n i p, text.length - i ≤ n → i ≤ p → p < text.length →
      ∃ t ∈ makeChunksAux text size step i, t.1 ≤ p ∧ p < t.2.1 := by
  intro n
  induction n with
  | zero =>
      intro i p hi hip hp
      exact absurd hp (by omega)
  | succ n ih =>
      intro i p hi hip hp
      have h : i < text.length := by omega
      rw [makeChunksAux_pos hsize h, max_eq_right hstep]
      have hlen := pySlice_length text i size
      by_cases hc : p < i + (pySlice text i size).length
      · exact ⟨(i, i + (pySlice text i size).length, pySlice text i size),
          List.mem_cons_self _ _, hip, hc⟩
      · push_neg at hc
        rw [hlen] at hc
        obtain ⟨t, ht, h1, h2⟩ := ih (i + step) p (by omega) (by omega) hp
        exact ⟨t, List.mem_cons_of_mem _ ht, h1, h2⟩

/-- C8: for nonempty text, positive window size and overlap in [0, size),
make_chunks produces exactly ceil(L / (S - O)) windows whose starts
advance by S - O, each recording chunk = text[start : end] with
end = start + len(chunk) <= L, and the windows cover every position. -/
theorem make_chunks_windows (text : List Char) (size overlap : Int)
    (hT : text ≠ []) (hS : 0 < size) (hO : 0 ≤ overlap) (hOS : overlap < size) :
    chunkCoverSpec text size overlap := by
  have hkey : makeChunks text size overlap =
      makeChunksAux text size.toNat (size - overlap).toNat 0 := by
    unfold makeChunks
    rw [if_neg (by omega)]
    have h1 : max 0 overlap = overlap := max_eq_right hO
    rw [h1]
    have h2 : max 1 (size - overlap) = size - overlap := max_eq_right (by omega)
    rw [h2]
  have hsz : 1 ≤ size.toNat := by omega
  have hst : 1 ≤ (size - overlap).toNat := by omega
  have hss : (size - overlap).toNat ≤ size.toNat := by omega
  have hlen0 : 0 < text.length := List.length_pos.mpr hT
  refine ⟨?_, ?_, ?_, ?_⟩
  · rw [hkey, makeChunksAux_length hsz hst text.length 0 (by omega)]
    simp
  · intro m t ht
    rw [hkey] at ht
    have := makeChunksAux_start hsz hst text.length 0 (by omega) m t ht
    simpa using this
  · intro t ht
    rw [hkey] at ht
    have h3 := makeChunksAux_mem hsz text.length 0 (by omega) t ht
    refine ⟨h3.1, h3.2.1, h3.2.2, ?_⟩
    have e : t.2.1 - t.1 = t.2.2.length := by omega
    rw [e, h3.1, pySlice_length]
    rcases le_or_lt size.toNat (text.length - t.1) with hle | hlt
    · rw [min_eq_left hle]
      rfl
    · rw [min_eq_right (by omega)]
      have hdl : (text.drop t.1).length = text.length - t.1 := List.length_drop _ _
      rw [← hdl, List.take_length]
      unfold pySlice
      exact List.take_of_length_le (by rw [hdl]; omega)
  · intro p hp
    rw [hkey]
    exact makeChunksAux_cover hsz hst hss text.length 0 p (by omega) (by omega) hp

/-- Witness for C8: text abcdefghij with window 5 and overlap 3. -/
theorem make_chunks_windows_witness :
    chunkCoverSpec "abcdefghij".toList 5 3 :=
  make_chunks_windows "abcdefghij".toList 5 3 (by decide) (by decide) (by decide) (by decide)

lemma upsertBatch_cons {K V : Type} [DecidableEq K] (t : List (K × V))
    (r : K × V) (rest : List (K × V)) :
    upsertBatch t (r :: rest) = upsertBatch (upsertRow t r.1 r.2) rest := rfl

lemma upsertRow_of_bindsAll {K V : Type} [DecidableEq K] {t : List (K × V)}
    {k : K} {v : V} (h : bindsAll t k v) : upsertRow t k v = t := by
  obtain ⟨⟨p0, hp0, hk0⟩, hall⟩ := h
  unfold upsertRow
  rw [if_pos]
  · have hmap : t.map (fun p => if p.1 = k then (k, v) else p) = t.map id := by
      apply List.map_congr_left
      intro p hp
      by_cases hpk : p.1 = k
      · rw [if_pos hpk]
        exact (hall p hp hpk).symm
      · rw [if_neg hpk]
        rfl
    rw [hmap, List.map_id]
  · rw [List.any_eq_true]
    exact ⟨p0, hp0, by simpa using hk0⟩

lemma bindsAll_upsertRow_self {K V : Type} [DecidableEq K] (t : List (K × V))
    (k : K) (v : V) : bindsAll (upsertRow t k v) k v := by
  unfold upsertRow
  by_cases hany : t.any (fun p => decide (p.1 = k)) = true
  · rw [if_pos hany]
    rw [List.any_eq_true] at hany
    obtain ⟨p0, hp0, hk0⟩ := hany
    rw [decide_eq_true_iff] at hk0
    constructor
    · exact ⟨(k, v), List.mem_map.mpr ⟨p0, hp0, by rw [if_pos hk0]⟩, rfl⟩
    · intro p hp hpk
      rw [List.mem_map] at hp
      obtain ⟨q, hq, hfq⟩ := hp
      by_cases hqk : q.1 = k
      · rw [if_pos hqk] at hfq
        exact hfq.symm
      · rw [if_neg hqk] at hfq
        rw [← hfq] at hpk
        exact absurd hpk hqk
  · rw [if_neg hany]
    constructor
    · exact ⟨(k, v), by simp, rfl⟩
    · intro p hp hpk
      rcases List.mem_append.mp hp with hL | hR
      · exfalso
        apply hany
        rw [List.any_eq_true]
        exact ⟨p, hL, by simpa using hpk⟩
      · simpa using hR

lemma bindsAll_upsertRow_other {K V : Type} [DecidableEq K] {t : List (K × V)}
    {k : K} {v : V} (k2 : K) (v2 : V) (hne : k2 ≠ k) (h : bindsAll t k v) :
    bindsAll (upsertRow t k2 v2) k v := by
  obtain ⟨⟨p0, hp0, hk0⟩, hall⟩ := h
  unfold upsertRow
  by_cases hany : t.any (fun p => decide (p.1 = k2)) = true
  · rw [if_pos hany]
    constructor
    · refine ⟨p0, List.mem_map.mpr ⟨p0, hp0, ?_⟩, hk0⟩
      rw [if_neg]
      rw [hk0]
      exact fun he => hne he.symm
    · intro p hp hpk
      rw [List.mem_map] at hp
      obtain ⟨q, hq, hfq⟩ := hp
      by_cases hqk : q.1 = k2
      · rw [if_pos hqk] at hfq
        rw [← hfq] at hpk
        exact absurd hpk hne
      · rw [if_neg hqk] at hfq
        rw [← hfq] at hpk ⊢
        exact hall q hq hpk
  · rw [if_neg hany]
    constructor
    · exact ⟨p0, List.mem_append_left _ hp0, hk0⟩
    · intro p hp hpk
      rcases List.mem_append.mp hp with hL | hR
      · exact hall p hL hpk
      · simp at hR
        rw [hR] at hpk
        exact absurd hpk hne

lemma bindsAll_upsertBatch_avoid {K V : Type} [DecidableEq K]
    (rows : List (K × V)) :
    ∀ (t : List (K × V)) (k : K) (v : V), bindsAll t k v →
      (∀ r ∈ rows, r.1 ≠ k) → bindsAll (upsertBatch t rows) k v := by
  induction rows with
  | nil =>
      intro t k v h _
      exact h
  | cons r rest ih =>
      intro t k v h havoid
      rw [upsertBatch_cons]
      exact ih _ k v
        (bindsAll_upsertRow_other r.1 r.2 (havoid r (List.mem_cons_self _ _)) h)
        (fun q hq => havoid q (List.mem_cons_of_mem _ hq))

lemma bindsAll_upsertBatch_all {K V : Type} [DecidableEq K]
    (rows : List (K × V)) :
    ∀ t : List (K × V), (rows.map Prod.fst).Nodup →
      ∀ r ∈ rows, bindsAll (upsertBatch t rows) r.1 r.2 := by
  induction rows with
  | nil =>
      intro t _ r hr
      cases hr
  | cons r0 rest ih =>
      intro t hnd r hr
      rw [List.map_cons, List.nodup_cons] at hnd
      rw [upsertBatch_cons]
      rcases List.mem_cons.mp hr with rfl | hr2
      · apply bindsAll_upsertBatch_avoid rest _ r.1 r.2 (bindsAll_upsertRow_self t r.1 r.2)
        intro q hq heq
        exact hnd.1 (List.mem_map.mpr ⟨q, hq, heq⟩)
      · exact ih (upsertRow t r0.1 r0.2) hnd.2 r hr2

lemma upsertBatch_of_all_bound {K V : Type} [DecidableEq K]
    (rows : List (K × V)) :
    ∀ t : List (K × V), (∀ r ∈ rows, bindsAll t r.1 r.2) →
      upsertBatch t rows = t := by
  induction rows with
  | nil =>
      intro t _
      rfl
  | cons r0 rest ih =>
      intro t h
      rw [upsertBatch_cons, upsertRow_of_bindsAll (h r0 (List.mem_cons_self _ _))]
      exact ih t (fun r hr => h r (List.mem_cons_of_mem _ hr))

lemma upsertBatch_idem {K V : Type} [DecidableEq K]
    (rows : List (K × V)) (t : List (K × V))
    (hnd : (rows.map Prod.fst).Nodup) :
    upsertBatch (upsertBatch t rows) rows = upsertBatch t rows :=
  upsertBatch_of_all_bound rows _ (fun r hr => bindsAll_upsertBatch_all rows t hnd r hr)

lemma docChunkUpsertRows_keys_nodup (docId title : String) (body : List Char)
    (size overlap : Int) :
    ((docChunkUpsertRows docId title body size overlap).map Prod.fst).Nodup := by
  have h1 : ((docChunkUpsertRows docId title body size overlap).map Prod.fst) =
      (makeChunks body size overlap).enum.map (fun p => (docId, p.1)) := by
    unfold docChunkUpsertRows
    rw [List.map_map]
    rfl
  have h2 : (makeChunks body size overlap).enum.map (fun p => (docId, p.1)) =
      ((makeChunks body size overlap).enum.map Prod.fst).map (fun i => (docId, i)) := by
    rw [List.map_map]
    rfl
  rw [h1, h2, List.enum_map_fst]
  apply List.Nodup.map
  · intro a b hab
    exact ((Prod.mk.injEq _ _ _ _).mp hab).2
  · exact List.nodup_range _

/-- C9: re-running the chunk upsert of an unchanged document over any
table state leaves the table unchanged under INSERT OR UPDATE semantics
keyed by (DocID, ChunkIndex): the same keyed rows are emitted and the
second application neither changes values nor duplicates rows. -/
theorem ingestion_idempotent (tbl : List ((String × Nat) × DocChunkDBRow))
    (docId title : String) (body : List Char) (size overlap : Int) :
    upsertBatch (upsertBatch tbl (docChunkUpsertRows docId title body size overlap))
        (docChunkUpsertRows docId title body size overlap)
      = upsertBatch tbl (docChunkUpsertRows docId title body size overlap) ∧
    (upsertBatch (upsertBatch tbl (docChunkUpsertRows docId title body size overlap))
        (docChunkUpsertRows docId title body size overlap)).length
      = (upsertBatch tbl (docChunkUpsertRows docId title body size overlap)).length := by
  have h := upsertBatch_idem (docChunkUpsertRows docId title body size overlap) tbl
    (docChunkUpsertRows_keys_nodup docId title body size overlap)
  exact ⟨h, congrArg List.length h⟩
